import Mathlib

/-!
Verification of the SmartNotesX backend (note/job resource lifecycle).

Shallow embedding of the route handlers and Mongoose models:
  - `src/models/User.js`, `Note.js`, `Job`, `Application`, `Bookmark` schemas
    become Lean structures; ObjectIds become `Nat` identifiers.
  - Each route handler becomes a pure function over an explicit state
    (the relevant collections), returning the post-state together with an
    `Except ApiErr` result that mirrors the error responses of the handler.
  - The Cloudinary media store is modelled by a success predicate
    `destroyOk : String → Bool` on public ids (the handlers only observe
    whether `cloudinary.uploader.destroy` succeeds or throws).
  - MongoDB query-sort is modelled by a comparator-parameterised insertion
    sort; `$push` appends, `$pull` removes all matches, `findOneAndDelete`
    removes the first match.
  - JavaScript truthiness in the `field || existing` update pattern is
    modelled explicitly: a missing field is `none`, a provided falsy value
    is `some ""` (strings) or `some 0` (numbers).
-/

namespace SmartNotes

/-! ### JavaScript-level helpers -/

/-- `v || old` for string-valued body fields: a missing (`none`) or
falsy (empty-string) value keeps `old`. -/
def jsOrStr (v : Option String) (old : String) : String :=
  match v with
  | none => old
  | some s => if s = "" then old else s

/-- `v || old` for number-valued body fields: missing or `0` keeps `old`. -/
def jsOrNat (v : Option Nat) (old : Nat) : Nat :=
  match v with
  | none => old
  | some n => if n = 0 then old else n

/-- JavaScript whitespace test used by `String.prototype.trim`. -/
def isWs (c : Char) : Bool :=
  c = ' ' || c = '\t' || c = '\n' || c = '\r'

/-- `String.prototype.trim` on a character list. -/
def trimChars (s : List Char) : List Char :=
  ((s.dropWhile isWs).reverse.dropWhile isWs).reverse

/-- Accumulator for the comma split. -/
def splitCommaAux : List Char → List Char → List (List Char)
  | [], acc => [acc.reverse]
  | c :: rest, acc =>
      if c = ',' then acc.reverse :: splitCommaAux rest []
      else splitCommaAux rest (c :: acc)

/-- `tags.split(...).map(tag => tag.trim())` with a comma separator, from `uploadNote` and `updateNote`. -/
def parseTags (s : String) : List String :=
  (splitCommaAux s.data []).map (fun cs => String.mk (trimChars cs))

/-- Lower-cased character list of a string (the case-insensitive regex flag). -/
def lowerChars (s : String) : List Char :=
  s.data.map Char.toLower

/-- `pat` occurs at the head of `hay`. -/
def leadsWith : List Char → List Char → Bool
  | [], _ => true
  | _ :: _, [] => false
  | p :: ps, h :: hs => p == h && leadsWith ps hs

/-- `pat` occurs somewhere inside `hay` (unanchored match). -/
def hasSubChars (pat : List Char) : List Char → Bool
  | [] => leadsWith pat []
  | h :: hs => leadsWith pat (h :: hs) || hasSubChars pat hs

/-- A case-insensitive RegExp built from `pat` tested against `hay`, for a literal pattern:
case-insensitive unanchored substring match. -/
def ciContains (hay pat : String) : Bool :=
  hasSubChars (lowerChars pat) (lowerChars hay)

/-- `Math.ceil(total / limit)` on naturals. -/
def ceilDivN (a b : Nat) : Nat :=
  (a + b - 1) / b

/-- Insert into a comparator-sorted list. -/
def insertSorted (le : α → α → Bool) (x : α) : List α → List α
  | [] => [x]
  | y :: ys => if le x y then x :: y :: ys else y :: insertSorted le x ys

/-- MongoDB `.sort(...)` modelled as a comparator sort (the comparator
stands for the dynamic `{[sortBy]: order}` key). -/
def sortByCmp (le : α → α → Bool) : List α → List α
  | [] => []
  | x :: xs => insertSorted le x (sortByCmp le xs)

/-- `if (param) query.field = cond(param)`: an absent or empty query-string
parameter adds no constraint. -/
def optIf (v : Option String) (f : String → Bool) : Bool :=
  match v with
  | none => true
  | some s => if s = "" then true else f s

/-! ### Data model (src/models) -/

/-- A stored User document (`src/models/User.js`). -/
structure UserRec where
  id : Nat
  name : String
  email : String
  password : String
  role : String
  branch : String
  semester : Nat
  isActive : Bool
  uploadedNotes : List Nat
  bookmarks : List Nat
deriving Repr, DecidableEq

/-- A serialized user as it leaves the API: the password field is
optional because queries may or may not select it. -/
structure UserWire where
  id : Nat
  name : String
  email : String
  password : Option String
  role : String
  branch : String
  semester : Nat
  isActive : Bool
  uploadedNotes : List Nat
  bookmarks : List Nat
deriving Repr, DecidableEq

/-- A stored Note document (`src/models/Note.js`). -/
structure Note where
  id : Nat
  title : String
  description : String
  subject : String
  semester : Nat
  branch : String
  fileUrl : String
  fileType : String
  fileSize : Nat
  cloudinaryPublicId : String
  uploadedBy : Nat
  status : String
  views : Nat
  downloads : Nat
  bookmarkedBy : List Nat
  tags : List String
deriving Repr, DecidableEq

/-- A stored Job document (`src/models/Job.js`); `applicationDeadline`
is a timestamp, comparisons mirror `Date` comparisons. -/
structure Job where
  id : Nat
  title : String
  company : String
  description : String
  type : String
  location : String
  locationType : String
  applicationDeadline : Int
  applyLink : String
  postedBy : Nat
  status : String
  applicants : List Nat
  views : Nat
deriving Repr, DecidableEq

/-- A stored Application document (`src/models/Application.js`). -/
structure JobApplication where
  job : Nat
  applicant : Nat
  coverLetter : String
deriving Repr, DecidableEq

/-- A stored Bookmark document (`src/models/Bookmark.js`). -/
structure BookmarkRec where
  user : Nat
  note : Nat
deriving Repr, DecidableEq

/-- The collections touched by the note/bookmark/admin handlers. -/
structure AppState where
  users : List UserRec
  notes : List Note
  bookmarks : List BookmarkRec
deriving Repr, DecidableEq

/-- The collections touched by the job handlers. -/
structure JobBoard where
  jobs : List Job
  applications : List JobApplication
deriving Repr, DecidableEq

/-- Error kinds surfaced by the handlers (mapped to HTTP statuses by the
response code in each handler). -/
inductive ApiErr where
  | notFound
  | notAuthorized
  | duplicate
  | businessRule
  | mediaFailure
  | cannotDeleteAdmin
deriving Repr, DecidableEq

/-- Pagination block of a list response. -/
structure Pagination where
  total : Nat
  page : Nat
  pages : Nat
  limit : Nat
deriving Repr, DecidableEq

/-! ### User serialization (src/models/User.js) -/

/-- `this.toObject()` on a user document loaded with its password. -/
def userToObject (u : UserRec) : UserWire :=
  { id := u.id, name := u.name, email := u.email, password := some u.password
    role := u.role, branch := u.branch, semester := u.semester
    isActive := u.isActive, uploadedNotes := u.uploadedNotes
    bookmarks := u.bookmarks }

/-- `userSchema.methods.toJSON`: `toObject()` then `delete user.password`. -/
def userToJSON (u : UserRec) : UserWire :=
  { userToObject u with password := none }

/-- A user query without an explicit password selection: the schema marks
`password` with `select: false`, so the loaded documents carry no
password field. -/
def findUsersDefault (db : List UserRec) (p : UserRec → Bool) : List UserWire :=
  (db.filter p).map (fun u => { userToObject u with password := none })

/-! ### Note listing (noteController.getNotes, src/unnamed/part_000) -/

/-- Query parameters of `GET /api/notes` (absent parameter = `none`). -/
structure NoteQuery where
  semester : Option Nat
  branch : Option String
  subject : Option String
  search : Option String
deriving Repr, DecidableEq

/-- The Mongo query built by `getNotes`: fixed approved status,
optional semester/branch equality, case-insensitive regex on subject,
`$or` regex search over title/description/subject. -/
def noteMatches (q : NoteQuery) (n : Note) : Bool :=
  n.status == "approved"
  && (match q.semester with | none => true | some s => n.semester == s)
  && optIf q.branch (fun b => n.branch == b)
  && optIf q.subject (fun s => ciContains n.subject s)
  && optIf q.search (fun s =>
       ciContains n.title s || ciContains n.description s || ciContains n.subject s)

/-- `GET /api/notes`: filter, sort, `skip((page-1)*limit).limit(limit)`,
plus the pagination block `{total, page, pages: ceil(total/limit), limit}`. -/
def getNotes (db : List Note) (q : NoteQuery) (page limit : Nat)
    (le : Note → Note → Bool) : List Note × Pagination :=
  let filtered := db.filter (noteMatches q)
  let items := ((sortByCmp le filtered).drop ((page - 1) * limit)).take limit
  (items,
   { total := filtered.length, page := page
     pages := ceilDivN filtered.length limit, limit := limit })

/-! ### Job listing and apply (src/controllers/jobController.js) -/

/-- Query parameters of `GET /api/jobs`; `status` defaults to active
only when absent (destructuring default). -/
structure JobQuery where
  type : Option String
  location : Option String
  locationType : Option String
  search : Option String
  status : Option String
deriving Repr, DecidableEq

/-- The status the query restricts to: caller-supplied or the active default. -/
def jobQueryStatus (q : JobQuery) : String :=
  q.status.getD "active"

/-- The Mongo query built by `getJobs`: `{status}`, optional type /
location-regex / locationType / `$or` search, and unconditionally
`applicationDeadline: {$gte: new Date()}`. -/
def jobMatches (q : JobQuery) (now : Int) (j : Job) : Bool :=
  j.status == jobQueryStatus q
  && optIf q.type (fun t => j.type == t)
  && optIf q.location (fun l => ciContains j.location l)
  && optIf q.locationType (fun lt => j.locationType == lt)
  && optIf q.search (fun s =>
       ciContains j.title s || ciContains j.company s || ciContains j.description s)
  && decide (now ≤ j.applicationDeadline)

/-- `GET /api/jobs`: filter, sort, skip/limit, pagination block. -/
def getJobs (db : List Job) (q : JobQuery) (now : Int) (page limit : Nat)
    (le : Job → Job → Bool) : List Job × Pagination :=
  let filtered := db.filter (jobMatches q now)
  let items := ((sortByCmp le filtered).drop ((page - 1) * limit)).take limit
  (items,
   { total := filtered.length, page := page
     pages := ceilDivN filtered.length limit, limit := limit })

/-- `Application.findOne({job, applicant})` predicate. -/
def isApplicationFor (jobId applicantId : Nat) (a : JobApplication) : Bool :=
  a.job == jobId && a.applicant == applicantId

/-- `POST /api/jobs/:id/apply` (`applyForJob`): 404 if the job is absent,
400 business-rule if `new Date(job.applicationDeadline) < new Date()`,
400 duplicate if an application for (job, applicant) exists, otherwise
create the application and `$push` the applicant / `$inc` views on the job. -/
def applyForJob (st : JobBoard) (jobId applicantId : Nat) (cover : String)
    (now : Int) : JobBoard × Except ApiErr JobApplication :=
  match st.jobs.find? (fun j => j.id == jobId) with
  | none => (st, .error .notFound)
  | some job =>
    if job.applicationDeadline < now then
      (st, .error .businessRule)
    else
      match st.applications.find? (isApplicationFor jobId applicantId) with
      | some _ => (st, .error .duplicate)
      | none =>
        let app : JobApplication := ⟨jobId, applicantId, cover⟩
        ({ jobs := st.jobs.map (fun j =>
              if j.id == jobId then
                { j with applicants := j.applicants ++ [applicantId]
                         views := j.views + 1 }
              else j)
           applications := st.applications ++ [app] },
         .ok app)

/-! ### Note update and delete (noteController, src/unnamed/part_000) -/

/-- The body of `PUT /api/notes/:id`: every field optional; a provided
falsy value (empty string / zero) is distinct from an absent one. -/
structure NotePatch where
  title : Option String
  description : Option String
  subject : Option String
  semester : Option Nat
  branch : Option String
  tags : Option String
deriving Repr, DecidableEq

/-- The `field || existing` update block of `updateNote`, plus the
`if (tags)` split-and-trim. -/
def applyNotePatch (p : NotePatch) (n : Note) : Note :=
  { n with
    title := jsOrStr p.title n.title
    description := jsOrStr p.description n.description
    subject := jsOrStr p.subject n.subject
    semester := jsOrNat p.semester n.semester
    branch := jsOrStr p.branch n.branch
    tags := match p.tags with
            | none => n.tags
            | some t => if t = "" then n.tags else parseTags t }

/-- `PUT /api/notes/:id` (`updateNote`): 404 if absent, 403 unless the
caller is the uploader or an admin, else apply the patch and save. -/
def updateNote (st : AppState) (noteId : Nat) (patch : NotePatch)
    (callerId : Nat) (callerRole : String) : AppState × Except ApiErr Note :=
  match st.notes.find? (fun n => n.id == noteId) with
  | none => (st, .error .notFound)
  | some note =>
    if note.uploadedBy ≠ callerId ∧ callerRole ≠ "admin" then
      (st, .error .notAuthorized)
    else
      let note' := applyNotePatch patch note
      ({ st with notes := st.notes.map (fun n => if n.id == noteId then note' else n) },
       .ok note')

/-- `DELETE /api/notes/:id` (`deleteNote`): 404 if absent, 403 unless
uploader or admin, then Cloudinary destroy (a thrown failure aborts
before any database write), `$pull` from the `uploadedNotes` of the uploader,
`findByIdAndDelete` the note. Bookmarks are not touched. -/
def deleteNote (st : AppState) (destroyOk : String → Bool) (noteId : Nat)
    (callerId : Nat) (callerRole : String) : AppState × Except ApiErr Unit :=
  match st.notes.find? (fun n => n.id == noteId) with
  | none => (st, .error .notFound)
  | some note =>
    if note.uploadedBy ≠ callerId ∧ callerRole ≠ "admin" then
      (st, .error .notAuthorized)
    else if !destroyOk note.cloudinaryPublicId then
      (st, .error .mediaFailure)
    else
      ({ st with
          users := st.users.map (fun u =>
            if u.id == note.uploadedBy then
              { u with uploadedNotes := u.uploadedNotes.filter (fun m => m ≠ noteId) }
            else u)
          notes := st.notes.filter (fun n => n.id ≠ noteId) },
       .ok ())

/-! ### Bookmarks (bookmarkController, src/controllers/jobController.js part 2) -/

/-- `Bookmark.findOne({user, note})` predicate. -/
def isBookmarkFor (userId noteId : Nat) (b : BookmarkRec) : Bool :=
  b.user == userId && b.note == noteId

/-- `$push: {bookmarks: noteId}` on the user document. -/
def pushBookmarkU (userId noteId : Nat) (u : UserRec) : UserRec :=
  if u.id == userId then { u with bookmarks := u.bookmarks ++ [noteId] } else u

/-- `$push: {bookmarkedBy: userId}` on the note document. -/
def pushBookmarkN (userId noteId : Nat) (n : Note) : Note :=
  if n.id == noteId then { n with bookmarkedBy := n.bookmarkedBy ++ [userId] } else n

/-- `$pull: {bookmarks: noteId}` on the user document. -/
def pullBookmarkU (userId noteId : Nat) (u : UserRec) : UserRec :=
  if u.id == userId then
    { u with bookmarks := u.bookmarks.filter (fun m => m ≠ noteId) }
  else u

/-- `$pull: {bookmarkedBy: userId}` on the note document. -/
def pullBookmarkN (userId noteId : Nat) (n : Note) : Note :=
  if n.id == noteId then
    { n with bookmarkedBy := n.bookmarkedBy.filter (fun v => v ≠ userId) }
  else n

/-- `POST /api/bookmarks/:noteId` (`addBookmark`): 404 if the note is
absent, 400 duplicate if a bookmark row exists, else create the row and
`$push` into `User.bookmarks` and `Note.bookmarkedBy`. -/
def addBookmark (st : AppState) (userId noteId : Nat) :
    AppState × Except ApiErr BookmarkRec :=
  match st.notes.find? (fun n => n.id == noteId) with
  | none => (st, .error .notFound)
  | some _ =>
    match st.bookmarks.find? (isBookmarkFor userId noteId) with
    | some _ => (st, .error .duplicate)
    | none =>
      let bm : BookmarkRec := ⟨userId, noteId⟩
      ({ users := st.users.map (pushBookmarkU userId noteId)
         notes := st.notes.map (pushBookmarkN userId noteId)
         bookmarks := st.bookmarks ++ [bm] },
       .ok bm)

/-- `DELETE /api/bookmarks/:noteId` (`removeBookmark`):
`findOneAndDelete` (removes the first matching row), 404 if none, then
`$pull` from `User.bookmarks` and `Note.bookmarkedBy`. -/
def removeBookmark (st : AppState) (userId noteId : Nat) :
    AppState × Except ApiErr Unit :=
  match st.bookmarks.find? (isBookmarkFor userId noteId) with
  | none => (st, .error .notFound)
  | some _ =>
    ({ users := st.users.map (pullBookmarkU userId noteId)
       notes := st.notes.map (pullBookmarkN userId noteId)
       bookmarks := st.bookmarks.eraseP (isBookmarkFor userId noteId) },
     .ok ())

/-- `GET /api/bookmarks` (`getMyBookmarks`): the bookmark rows of the caller,
each populated with its note; rows whose note no longer exists populate
to `null` and are filtered out. -/
def getMyBookmarks (st : AppState) (userId : Nat) : List Note :=
  (st.bookmarks.filter (fun b => b.user == userId)).filterMap
    (fun b => st.notes.find? (fun n => n.id == b.note))

/-- `GET /api/bookmarks/check/:noteId` (`checkBookmark`): `!!bookmark`. -/
def checkBookmark (st : AppState) (userId noteId : Nat) : Bool :=
  (st.bookmarks.find? (isBookmarkFor userId noteId)).isSome

/-! ### Admin (src/controllers/adminController.js) -/

/-- The `overview` block of `GET /api/admin/stats`. -/
structure DashboardOverview where
  totalUsers : Nat
  totalNotes : Nat
  totalDownloads : Nat
  totalViews : Nat
deriving Repr, DecidableEq

/-- `getDashboardStats` overview: the student-role user count,
`Note.countDocuments()`, and the summed downloads/views aggregates. -/
def getDashboardStats (users : List UserRec) (notes : List Note) :
    DashboardOverview :=
  { totalUsers := (users.filter (fun u => u.role == "student")).length
    totalNotes := notes.length
    totalDownloads := (notes.map (fun n => n.downloads)).sum
    totalViews := (notes.map (fun n => n.views)).sum }

/-- The per-note loop of admin `deleteUser`: for each note, Cloudinary
destroy then `findByIdAndDelete`; a destroy failure throws out of the
loop, leaving the notes already processed deleted. -/
def deleteUserNotesLoop (st : AppState) (destroyOk : String → Bool) :
    List Note → AppState × Except ApiErr Unit
  | [] => (st, .ok ())
  | n :: rest =>
    if destroyOk n.cloudinaryPublicId then
      deleteUserNotesLoop
        { st with notes := st.notes.filter (fun m => m.id ≠ n.id) } destroyOk rest
    else
      (st, .error .mediaFailure)

/-- `DELETE /api/admin/users/:id` (`deleteUser`): 404 if absent, 400 if
the target is an admin, else delete every note the user uploaded (file
first, then row), then delete the user row. -/
def deleteUser (st : AppState) (destroyOk : String → Bool) (userId : Nat) :
    AppState × Except ApiErr Unit :=
  match st.users.find? (fun u => u.id == userId) with
  | none => (st, .error .notFound)
  | some user =>
    if user.role == "admin" then
      (st, .error .cannotDeleteAdmin)
    else
      match deleteUserNotesLoop st destroyOk
              (st.notes.filter (fun n => n.uploadedBy == userId)) with
      | (st', .error e) => (st', .error e)
      | (st', .ok _) =>
        ({ st' with users := st'.users.filter (fun u => u.id ≠ userId) }, .ok ())

/-! ### Concrete sample data for witnesses and counterexamples -/

/-- A student user owning notes 1 and 2. -/
def userOne : UserRec :=
  { id := 1, name := "A", email := "a@x.y", password := "hashed1"
    role := "student", branch := "CSE", semester := 3, isActive := true
    uploadedNotes := [1, 2], bookmarks := [] }

/-- A second student user, not an owner of any note. -/
def userFive : UserRec :=
  { id := 5, name := "B", email := "b@x.y", password := "hashed5"
    role := "student", branch := "ECE", semester := 3, isActive := true
    uploadedNotes := [], bookmarks := [] }

/-- An admin user. -/
def userAdmin : UserRec :=
  { id := 9, name := "Adm", email := "adm@x.y", password := "hashedA"
    role := "admin", branch := "CSE", semester := 1, isActive := true
    uploadedNotes := [], bookmarks := [] }

/-- An approved note owned by user 1, Cloudinary id p1. -/
def noteP1 : Note :=
  { id := 1, title := "T1", description := "old", subject := "DBMS"
    semester := 3, branch := "CSE", fileUrl := "u1"
    fileType := "application/pdf", fileSize := 1, cloudinaryPublicId := "p1"
    uploadedBy := 1, status := "approved", views := 0, downloads := 0
    bookmarkedBy := [], tags := [] }

/-- A second approved note owned by user 1, Cloudinary id p2. -/
def noteP2 : Note :=
  { id := 2, title := "T2", description := "d2", subject := "OS"
    semester := 3, branch := "CSE", fileUrl := "u2"
    fileType := "application/pdf", fileSize := 1, cloudinaryPublicId := "p2"
    uploadedBy := 1, status := "approved", views := 0, downloads := 0
    bookmarkedBy := [], tags := [] }

/-- State with user 1 owning notes 1 and 2 (for the delete scenarios). -/
def stTwoNotes : AppState :=
  { users := [userOne], notes := [noteP1, noteP2], bookmarks := [] }

/-- Media store that fails exactly on Cloudinary id p2. -/
def destroyFailP2 : String → Bool :=
  fun pid => pid ≠ "p2"

/-- State for the bookmark scenarios: user 5 and the note of user 1. -/
def stBookmarkable : AppState :=
  { users := [userOne, userFive], notes := [noteP1, noteP2], bookmarks := [] }

/-- State where user 5 has already bookmarked note 2. -/
def stBookmarked : AppState :=
  { users := [userOne,
              { userFive with bookmarks := [2] }]
    notes := [noteP1, { noteP2 with bookmarkedBy := [5] }]
    bookmarks := [⟨5, 2⟩] }

/-- A job with deadline 100 posted by the admin. -/
def jobOne : Job :=
  { id := 1, title := "SWE", company := "Acme", description := "Build things"
    type := "Job", location := "Delhi", locationType := "On-site"
    applicationDeadline := 100, applyLink := "l", postedBy := 9
    status := "active", applicants := [], views := 0 }

/-- Job board holding only `jobOne`, with no applications. -/
def boardOne : JobBoard :=
  { jobs := [jobOne], applications := [] }

/-- The all-default (empty) job query. -/
def jobQueryDefault : JobQuery :=
  { type := none, location := none, locationType := none, search := none
    status := none }

/-- The note query of the spec scenario: lower-case subject filter. -/
def noteQueryDbms : NoteQuery :=
  { semester := none, branch := none, subject := some "dbms", search := none }

/-- A trivial sort comparator (sort order is irrelevant to the claims). -/
def leAny {α : Type} : α → α → Bool :=
  fun _ _ => true

/-- The patch of the falsy-value scenario: title provided truthy,
description provided as the empty string, everything else absent. -/
def patchEmptyDesc : NotePatch :=
  { title := some "New", description := some "", subject := none
    semester := none, branch := none, tags := none }

/-! ### Helper lemmas -/

/-- Membership is invariant under `insertSorted`. -/
theorem mem_insertSorted (le : α → α → Bool) (x a : α) (l : List α) :
    a ∈ insertSorted le x l ↔ a = x ∨ a ∈ l := by
  induction l with
  | nil => simp [insertSorted]
  | cons y ys ih =>
    simp only [insertSorted]
    split
    · simp [or_comm, or_left_comm]
    · simp [ih, or_comm, or_left_comm]

/-- Membership is invariant under `sortByCmp`. -/
theorem mem_sortByCmp (le : α → α → Bool) (a : α) (l : List α) :
    a ∈ sortByCmp le l ↔ a ∈ l := by
  induction l with
  | nil => simp [sortByCmp]
  | cons x xs ih => simp [sortByCmp, mem_insertSorted, ih]

/-- `find?` commutes with a map that preserves the predicate. -/
theorem find?_map_pres (f : α → α) (p : α → Bool) (hf : ∀ a, p (f a) = p a)
    (l : List α) : (l.map f).find? p = (l.find? p).map f := by
  induction l with
  | nil => rfl
  | cons a l ih =>
    simp only [List.map_cons, List.find?]
    rw [hf a]
    cases h : p a <;> simp [ih]

/-- Erasing the single appended match restores the list. -/
theorem eraseP_append_singleton (p : α → Bool) (b : α) (l : List α)
    (hl : ∀ x ∈ l, p x = false) (hb : p b = true) :
    (l ++ [b]).eraseP p = l := by
  induction l with
  | nil => simp [List.eraseP, hb]
  | cons a l ih =>
    have ha : p a = false := hl a (by simp)
    simp only [List.cons_append, List.eraseP_cons, ha, cond_false,
      List.cons.injEq, true_and]
    exact ih (fun x hx => hl x (by simp [hx]))

/-- A double map that is the identity on every element is the identity. -/
theorem map_map_eq_self (f g : α → α) (l : List α)
    (h : ∀ a ∈ l, g (f a) = a) : (l.map f).map g = l := by
  rw [List.map_map]
  calc l.map (g ∘ f) = l.map id := List.map_congr_left h
    _ = l := List.map_id l

/-- Filtering away an element that does not occur changes nothing. -/
theorem filter_not_eq_of_not_mem (x : Nat) (l : List Nat) (hx : x ∉ l) :
    l.filter (fun m => !decide (m = x)) = l := by
  induction l with
  | nil => rfl
  | cons a l ih =>
    have hax : ¬a = x := fun h => hx (by simp [h])
    have hmem : x ∉ l := fun h => hx (List.mem_cons_of_mem a h)
    simp [List.filter, hax, ih hmem]

/-- Splitting a list by a predicate preserves length. -/
theorem length_filter_split (p : α → Bool) (l : List α) :
    (l.filter p).length + (l.filter (fun a => !p a)).length = l.length := by
  induction l with
  | nil => rfl
  | cons a l ih => cases h : p a <;> simp [List.filter, h] <;> omega

/-! ### Claim theorems -/

/-- C1: the stored (hashed) password is never serialized: the `toJSON`
method deletes the password field, and user queries without an explicit
password selection (schema `select: false`) load documents with no
password field, so no Get/List response carries it. -/
theorem C1_password_not_serialized (u : UserRec) (db : List UserRec)
    (p : UserRec → Bool) (w : UserWire) :
    (userToJSON u).password = none ∧
    (w ∈ findUsersDefault db p → w.password = none) := by
  refine ⟨rfl, fun hw => ?_⟩
  simp only [findUsersDefault, List.mem_map] at hw
  obtain ⟨u', _, rfl⟩ := hw
  rfl

/-- Witness for C1 at a concrete user and query. -/
theorem C1_witness :
    ({ userToObject userOne with password := none } : UserWire).password = none :=
  (C1_password_not_serialized userOne [userOne] (fun _ => true)
    { userToObject userOne with password := none }).2 (by decide)

/-- C10: the dashboard `totalUsers` counts exactly the student-role users
(admins are excluded: appending an admin changes nothing), while
`totalNotes` counts every note regardless of its lifecycle status
(rewriting every status leaves the count unchanged). -/
theorem C10_dashboard_counts (users : List UserRec) (notes : List Note)
    (a : UserRec) (f : Note → String) (ha : a.role = "admin") :
    (getDashboardStats (users ++ [a]) notes).totalUsers
      = (getDashboardStats users notes).totalUsers ∧
    (getDashboardStats users notes).totalUsers
      + (users.filter (fun u => !(u.role == "student"))).length = users.length ∧
    (getDashboardStats users notes).totalNotes = notes.length ∧
    (getDashboardStats users (notes.map (fun n => { n with status := f n }))).totalNotes
      = (getDashboardStats users notes).totalNotes := by
  refine ⟨?_, ?_, rfl, ?_⟩
  · simp [getDashboardStats, List.filter_append, ha]
  · exact length_filter_split (fun u => u.role == "student") users
  · simp [getDashboardStats]

/-- Witness for C10 at a concrete user and note population. -/
theorem C10_witness :
    (getDashboardStats ([userOne, userFive] ++ [userAdmin]) [noteP1]).totalUsers
      = (getDashboardStats [userOne, userFive] [noteP1]).totalUsers ∧
    (getDashboardStats [userOne, userFive] [noteP1]).totalNotes = 1 := by
  have h := C10_dashboard_counts [userOne, userFive] [noteP1] userAdmin
    (fun _ => "pending") rfl
  exact ⟨h.1, h.2.2.1⟩

/-- C2: every job in a public listing response satisfies
`applicationDeadline ≥ now` (this restriction is never lifted), and its
status is the caller-supplied one, defaulting to active when the caller
does not override the status filter; hence a job with a past deadline
never appears in the default public listing. -/
theorem C2_public_job_listing (db : List Job) (q : JobQuery) (now : Int)
    (page limit : Nat) (le : Job → Job → Bool) (j : Job)
    (hj : j ∈ (getJobs db q now page limit le).1) :
    now ≤ j.applicationDeadline ∧ j.status = jobQueryStatus q ∧
      (q.status = none → j.status = "active") := by
  simp only [getJobs] at hj
  have h3 := (mem_sortByCmp le j _).mp
    (List.mem_of_mem_drop (List.mem_of_mem_take hj))
  have h4 := (List.mem_filter.mp h3).2
  simp only [jobMatches, Bool.and_eq_true, beq_iff_eq, decide_eq_true_eq] at h4
  obtain ⟨⟨⟨⟨⟨hstat, _⟩, _⟩, _⟩, _⟩, hdl⟩ := h4
  refine ⟨hdl, hstat, fun hs => ?_⟩
  rw [hstat]
  simp [jobQueryStatus, hs]

/-- Witness for C2: the sample job appears in the default listing at
time 0 and satisfies both restrictions. -/
theorem C2_witness :
    (0 : Int) ≤ jobOne.applicationDeadline ∧ jobOne.status = "active" := by
  have h := C2_public_job_listing [jobOne] jobQueryDefault 0 1 12 leAny jobOne
    (by decide)
  exact ⟨h.1, h.2.2 rfl⟩

/-- C7: every note in a public listing response has approved status;
when a subject filter is supplied, the lower-cased filter occurs as a
substring of the lower-cased note subject; and the pagination block
reports the exact match count, the requested page/limit, and the least
page count covering all matches. -/
theorem C7_public_note_listing (db : List Note) (q : NoteQuery)
    (page limit : Nat) (le : Note → Note → Bool) :
    (∀ n ∈ (getNotes db q page limit le).1,
        n.status = "approved" ∧
        ∀ s, q.subject = some s → s ≠ "" →
          hasSubChars (lowerChars s) (lowerChars n.subject) = true) ∧
    (getNotes db q page limit le).2.total = (db.filter (noteMatches q)).length ∧
    (getNotes db q page limit le).2.page = page ∧
    (getNotes db q page limit le).2.limit = limit ∧
    (0 < limit →
      (getNotes db q page limit le).2.total
          ≤ limit * (getNotes db q page limit le).2.pages ∧
      ∀ c, (getNotes db q page limit le).2.total ≤ limit * c →
        (getNotes db q page limit le).2.pages ≤ c) := by
  refine ⟨fun n hn => ?_, rfl, rfl, rfl, fun hl => ⟨?_, fun c hc => ?_⟩⟩
  · simp only [getNotes] at hn
    have h3 := (mem_sortByCmp le n _).mp
      (List.mem_of_mem_drop (List.mem_of_mem_take hn))
    have h4 := (List.mem_filter.mp h3).2
    simp only [noteMatches, Bool.and_eq_true, beq_iff_eq] at h4
    obtain ⟨⟨⟨⟨hstat, _⟩, _⟩, hsub⟩, _⟩ := h4
    refine ⟨hstat, fun s hs hne => ?_⟩
    rw [hs] at hsub
    simp only [optIf] at hsub
    rwa [if_neg hne] at hsub
  · show (db.filter (noteMatches q)).length
      ≤ limit * ceilDivN (db.filter (noteMatches q)).length limit
    have h := le_smul_ceilDiv (b := (db.filter (noteMatches q)).length) hl
    simpa [smul_eq_mul, ceilDivN] using h
  · show ceilDivN (db.filter (noteMatches q)).length limit ≤ c
    exact (ceilDiv_le_iff_le_mul hl).mpr hc

/-- Witness for C7: the spec scenario, a DBMS note found by the
lower-case subject filter. -/
theorem C7_witness :
    noteP1 ∈ (getNotes [noteP1] noteQueryDbms 1 12 leAny).1 ∧
    noteP1.status = "approved" ∧
    hasSubChars (lowerChars "dbms") (lowerChars noteP1.subject) = true ∧
    (getNotes [noteP1] noteQueryDbms 1 12 leAny).2.total
      ≤ 12 * (getNotes [noteP1] noteQueryDbms 1 12 leAny).2.pages := by
  have h := C7_public_note_listing [noteP1] noteQueryDbms 1 12 leAny
  have hm : noteP1 ∈ (getNotes [noteP1] noteQueryDbms 1 12 leAny).1 := by decide
  obtain ⟨hs, hsub⟩ := h.1 noteP1 hm
  exact ⟨hm, hs, hsub "dbms" rfl (by decide), (h.2.2.2.2 (by decide)).1⟩

/-- C3: `applyForJob` fails not-found if the job is absent; fails the
business rule if the deadline has passed, regardless of prior
application state; fails duplicate if an application for the
(job, applicant) pair exists; otherwise creates exactly one
application, appends the applicant to the applicants of the job, and
increments its view count by one. -/
theorem C3_apply_for_job (st : JobBoard) (jobId applicantId : Nat)
    (cover : String) (now : Int) :
    (st.jobs.find? (fun j => j.id == jobId) = none →
       applyForJob st jobId applicantId cover now = (st, .error .notFound)) ∧
    (∀ job, st.jobs.find? (fun j => j.id == jobId) = some job →
       job.applicationDeadline < now →
       applyForJob st jobId applicantId cover now = (st, .error .businessRule)) ∧
    (∀ job, st.jobs.find? (fun j => j.id == jobId) = some job →
       ¬ job.applicationDeadline < now →
       (st.applications.find? (isApplicationFor jobId applicantId)).isSome →
       applyForJob st jobId applicantId cover now = (st, .error .duplicate)) ∧
    (∀ job, st.jobs.find? (fun j => j.id == jobId) = some job →
       ¬ job.applicationDeadline < now →
       st.applications.find? (isApplicationFor jobId applicantId) = none →
       (applyForJob st jobId applicantId cover now).2
           = .ok ⟨jobId, applicantId, cover⟩ ∧
       (applyForJob st jobId applicantId cover now).1.applications
           = st.applications ++ [⟨jobId, applicantId, cover⟩] ∧
       ((applyForJob st jobId applicantId cover now).1.applications.filter
           (isApplicationFor jobId applicantId)).length = 1 ∧
       (applyForJob st jobId applicantId cover now).1.jobs.find?
           (fun j => j.id == jobId)
         = some { job with applicants := job.applicants ++ [applicantId]
                           views := job.views + 1 }) := by
  refine ⟨fun hnone => ?_, fun job hfind hdl => ?_,
          fun job hfind hdl hdup => ?_, fun job hfind hdl hdup => ?_⟩
  · simp [applyForJob, hnone]
  · simp [applyForJob, hfind, hdl]
  · obtain ⟨a, ha⟩ := Option.isSome_iff_exists.mp hdup
    simp [applyForJob, hfind, hdl, ha]
  · have hjid : (job.id == jobId) = true := by
      have := List.find?_some (p := fun j : Job => j.id == jobId) hfind
      simpa using this
    have hpres : ∀ a : Job,
        ((if a.id == jobId then
            { a with applicants := a.applicants ++ [applicantId]
                     views := a.views + 1 }
          else a).id == jobId) = (a.id == jobId) := by
      intro a
      cases h : a.id == jobId <;> simp [h]
    refine ⟨?_, ?_, ?_, ?_⟩
    · simp [applyForJob, hfind, hdup, if_neg hdl]
    · simp [applyForJob, hfind, hdup, if_neg hdl]
    · simp only [applyForJob, hfind, hdup, if_neg hdl]
      rw [List.filter_append]
      have hnil : st.applications.filter (isApplicationFor jobId applicantId) = [] := by
        rw [List.filter_eq_nil_iff]
        intro a hma
        have := List.find?_eq_none.mp hdup a hma
        simpa using this
      rw [hnil]
      simp [isApplicationFor]
    · simp only [applyForJob, hfind, hdup, if_neg hdl]
      rw [find?_map_pres _ _ hpres st.jobs, hfind, Option.map_some']
      rw [if_pos hjid]

/-- Witness for C3: a successful application on the sample board before
the deadline, showing the created application and the job update. -/
theorem C3_witness :
    (applyForJob boardOne 1 5 "hi" 50).2 = .ok ⟨1, 5, "hi"⟩ ∧
    (applyForJob boardOne 1 5 "hi" 50).1.applications = [⟨1, 5, "hi"⟩] ∧
    (applyForJob boardOne 1 5 "hi" 50).1.jobs.find? (fun j => j.id == 1)
      = some { jobOne with applicants := [5], views := 1 } := by
  have h := (C3_apply_for_job boardOne 1 5 "hi" 50).2.2.2 jobOne rfl
    (by decide) rfl
  exact ⟨h.1, h.2.1, h.2.2.2⟩

/-- C4 fails on the code: `updateNote` uses the `field || existing`
pattern, so a field provided as the empty string does not overwrite the
stored value. Here the patch provides `description = ""` but the stored
description `old` survives (while the truthy title does overwrite). -/
theorem C4_counterexample :
    patchEmptyDesc.description = some "" ∧
    (∃ n', (updateNote stTwoNotes 1 patchEmptyDesc 1 "student").2 = .ok n' ∧
       n'.description = "old" ∧ n'.title = "New") ∧
    noteP1.description = "old" ∧ ("old" : String) ≠ "" := by
  exact ⟨rfl, ⟨applyNotePatch patchEmptyDesc noteP1, rfl, by decide, by decide⟩,
    rfl, by decide⟩

/-- C4 amended: the authorized note update is a partial-field update in
which a provided truthy field overwrites the stored value, while an
absent field — or a field provided with a falsy value (empty string,
zero) — keeps the stored value; all fields outside the patch are
unchanged. -/
theorem C4_amended_partial_update (st : AppState) (noteId : Nat)
    (patch : NotePatch) (callerId : Nat) (callerRole : String) (note : Note)
    (hfind : st.notes.find? (fun n => n.id == noteId) = some note)
    (hauth : ¬(note.uploadedBy ≠ callerId ∧ callerRole ≠ "admin")) :
    ∃ note', updateNote st noteId patch callerId callerRole
        = ({ st with notes := st.notes.map (fun n => if n.id == noteId then note' else n) },
           .ok note') ∧
      (∀ s, patch.title = some s → s ≠ "" → note'.title = s) ∧
      (∀ s, patch.description = some s → s ≠ "" → note'.description = s) ∧
      (∀ s, patch.subject = some s → s ≠ "" → note'.subject = s) ∧
      (∀ k, patch.semester = some k → k ≠ 0 → note'.semester = k) ∧
      (∀ s, patch.branch = some s → s ≠ "" → note'.branch = s) ∧
      (∀ s, patch.tags = some s → s ≠ "" → note'.tags = parseTags s) ∧
      ((patch.title = none ∨ patch.title = some "") → note'.title = note.title) ∧
      ((patch.description = none ∨ patch.description = some "") →
         note'.description = note.description) ∧
      ((patch.subject = none ∨ patch.subject = some "") →
         note'.subject = note.subject) ∧
      ((patch.semester = none ∨ patch.semester = some 0) →
         note'.semester = note.semester) ∧
      ((patch.branch = none ∨ patch.branch = some "") →
         note'.branch = note.branch) ∧
      ((patch.tags = none ∨ patch.tags = some "") → note'.tags = note.tags) ∧
      note'.id = note.id ∧ note'.fileUrl = note.fileUrl ∧
      note'.fileType = note.fileType ∧
      note'.cloudinaryPublicId = note.cloudinaryPublicId ∧
      note'.uploadedBy = note.uploadedBy ∧ note'.status = note.status ∧
      note'.views = note.views ∧ note'.downloads = note.downloads ∧
      note'.bookmarkedBy = note.bookmarkedBy := by
  refine ⟨applyNotePatch patch note, ?_,
    fun s hs hne => ?_, fun s hs hne => ?_, fun s hs hne => ?_,
    fun k hk hne => ?_, fun s hs hne => ?_, fun s hs hne => ?_,
    fun h => ?_, fun h => ?_, fun h => ?_, fun h => ?_, fun h => ?_,
    fun h => ?_, rfl, rfl, rfl, rfl, rfl, rfl, rfl, rfl, rfl⟩
  · simp only [updateNote, hfind, if_neg hauth]
  · simp [applyNotePatch, jsOrStr, hs, hne]
  · simp [applyNotePatch, jsOrStr, hs, hne]
  · simp [applyNotePatch, jsOrStr, hs, hne]
  · simp [applyNotePatch, jsOrNat, hk, hne]
  · simp [applyNotePatch, jsOrStr, hs, hne]
  · simp [applyNotePatch, hs, hne]
  · rcases h with h | h <;> simp [applyNotePatch, jsOrStr, h]
  · rcases h with h | h <;> simp [applyNotePatch, jsOrStr, h]
  · rcases h with h | h <;> simp [applyNotePatch, jsOrStr, h]
  · rcases h with h | h <;> simp [applyNotePatch, jsOrNat, h]
  · rcases h with h | h <;> simp [applyNotePatch, jsOrStr, h]
  · rcases h with h | h <;> simp [applyNotePatch, h]

/-- Witness for C4 amended: the falsy-description patch applied by the
owner keeps the stored description and overwrites the truthy title. -/
theorem C4_witness :
    ∃ n', (updateNote stTwoNotes 1 patchEmptyDesc 1 "student").2 = .ok n' ∧
      n'.title = "New" ∧ n'.description = "old" := by
  obtain ⟨n', heq, ht, _, _, _, _, _, _, hdF, _⟩ := C4_amended_partial_update
    stTwoNotes 1 patchEmptyDesc 1 "student" noteP1 rfl (by simp [noteP1])
  refine ⟨n', ?_, ht "New" rfl (by decide), hdF (Or.inr rfl)⟩
  rw [heq]

/-- C8: on an existing note, update and delete fail with the
authorization error — leaving the state unchanged — whenever the caller
is neither the uploader nor an admin, and the authorization check never
fires for the uploader or an admin. -/
theorem C8_note_authorization (st : AppState) (noteId : Nat)
    (patch : NotePatch) (d : String → Bool) (callerId : Nat)
    (callerRole : String) (note : Note)
    (hfind : st.notes.find? (fun n => n.id == noteId) = some note) :
    (note.uploadedBy ≠ callerId → callerRole ≠ "admin" →
       updateNote st noteId patch callerId callerRole
           = (st, .error .notAuthorized) ∧
       deleteNote st d noteId callerId callerRole
           = (st, .error .notAuthorized)) ∧
    ((note.uploadedBy = callerId ∨ callerRole = "admin") →
       (updateNote st noteId patch callerId callerRole).2
           ≠ .error .notAuthorized ∧
       (deleteNote st d noteId callerId callerRole).2
           ≠ .error .notAuthorized) := by
  constructor
  · intro h1 h2
    constructor
    · simp [updateNote, hfind, h1, h2]
    · simp [deleteNote, hfind, h1, h2]
  · intro h
    have hcond : ¬(note.uploadedBy ≠ callerId ∧ callerRole ≠ "admin") := by
      rcases h with h | h <;> simp [h]
    constructor
    · simp [updateNote, hfind, if_neg hcond]
    · simp only [deleteNote, hfind, if_neg hcond]
      split <;> simp

/-- Witness for C8: user 5 can neither update nor delete the note of
user 1, while an admin passes the check. -/
theorem C8_witness :
    updateNote stTwoNotes 1 patchEmptyDesc 5 "student"
      = (stTwoNotes, .error .notAuthorized) ∧
    deleteNote stTwoNotes (fun _ => true) 1 5 "student"
      = (stTwoNotes, .error .notAuthorized) ∧
    (updateNote stTwoNotes 1 patchEmptyDesc 5 "admin").2
      ≠ .error .notAuthorized := by
  have h := C8_note_authorization stTwoNotes 1 patchEmptyDesc (fun _ => true)
    5 "student" noteP1 rfl
  have h2 := C8_note_authorization stTwoNotes 1 patchEmptyDesc (fun _ => true)
    5 "admin" noteP1 rfl
  obtain ⟨hn1, hn2⟩ := h.1 (by decide) (by decide)
  exact ⟨hn1, hn2, (h2.2 (Or.inr rfl)).1⟩

/-- The per-note delete loop of admin `deleteUser` never touches the
users or bookmarks collections. -/
theorem deleteUserNotesLoop_frame (d : String → Bool) (l : List Note)
    (st : AppState) :
    (deleteUserNotesLoop st d l).1.users = st.users ∧
    (deleteUserNotesLoop st d l).1.bookmarks = st.bookmarks := by
  induction l generalizing st with
  | nil => exact ⟨rfl, rfl⟩
  | cons n rest ih =>
    simp only [deleteUserNotesLoop]
    split
    · exact ih _
    · exact ⟨rfl, rfl⟩

/-- C5 fails on the code for the user-deletion path: deleting user 1,
whose second note has a media-store deletion that fails, aborts with an
error but has already committed the deletion of the first note row. -/
theorem C5_counterexample :
    (deleteUser stTwoNotes destroyFailP2 1).2 = .error .mediaFailure ∧
    (deleteUser stTwoNotes destroyFailP2 1).1.notes ≠ stTwoNotes.notes ∧
    noteP1 ∉ (deleteUser stTwoNotes destroyFailP2 1).1.notes ∧
    noteP1 ∈ stTwoNotes.notes ∧
    (deleteUser stTwoNotes destroyFailP2 1).1.users = stTwoNotes.users := by
  exact ⟨rfl, by decide, by decide, by decide, rfl⟩

/-- C5 amended: a failed media-store deletion during a single-note
delete aborts the operation with the whole state unchanged; during a
user delete it aborts before touching the user row (users and bookmarks
are unchanged), but note rows processed before the failing one are
already deleted. -/
theorem C5_amended_media_failure (st : AppState) (d : String → Bool)
    (noteId callerId uid : Nat) (role : String) (e : ApiErr) :
    ((deleteNote st d noteId callerId role).2 = .error e →
       (deleteNote st d noteId callerId role).1 = st) ∧
    ((deleteUser st d uid).2 = .error e →
       (deleteUser st d uid).1.users = st.users ∧
       (deleteUser st d uid).1.bookmarks = st.bookmarks) := by
  constructor
  · intro he
    rcases hfind : st.notes.find? (fun n => n.id == noteId) with _ | note
    · simp only [deleteNote, hfind]
    · simp only [deleteNote, hfind] at he ⊢
      by_cases hauth : note.uploadedBy ≠ callerId ∧ role ≠ "admin"
      · rw [if_pos hauth]
      · rw [if_neg hauth] at he ⊢
        by_cases hd : (!d note.cloudinaryPublicId) = true
        · rw [if_pos hd]
        · rw [if_neg hd] at he
          simp at he
  · intro he
    rcases hfind : st.users.find? (fun u => u.id == uid) with _ | user
    · simp [deleteUser, hfind]
    · simp only [deleteUser, hfind] at he ⊢
      by_cases hadm : (user.role == "admin") = true
      · rw [if_pos hadm]
        exact ⟨rfl, rfl⟩
      · rw [if_neg hadm] at he ⊢
        rcases hloop : deleteUserNotesLoop st d
            (st.notes.filter (fun n => n.uploadedBy == uid)) with ⟨st', r⟩
        have hf := deleteUserNotesLoop_frame d
          (st.notes.filter (fun n => n.uploadedBy == uid)) st
        rw [hloop] at hf
        rcases r with e' | u
        · simp only [hloop] at he ⊢
          exact hf
        · simp only [hloop] at he
          exact Except.noConfusion he

/-- Witness for C5 amended: a failing media store leaves the single-note
delete state untouched, and the partial user delete keeps the user row. -/
theorem C5_witness :
    (deleteNote stTwoNotes (fun _ => false) 1 1 "student").1 = stTwoNotes ∧
    (deleteUser stTwoNotes destroyFailP2 1).1.users = stTwoNotes.users := by
  have h1 := C5_amended_media_failure stTwoNotes (fun _ => false) 1 1 1
    "student" .mediaFailure
  have h2 := C5_amended_media_failure stTwoNotes destroyFailP2 1 1 1
    "student" .mediaFailure
  exact ⟨h1.1 rfl, (h2.2 rfl).1⟩

/-- C9: a successful note delete removes the Note row and the
`uploadedNotes` reference of the owner, but leaves the Bookmark
collection and every `User.bookmarks` array untouched, so an existing
bookmark check still answers true afterwards; the dangling row is only
hidden in the bookmark listing, where rows populating to a missing note
are filtered out. -/
theorem C9_delete_note_keeps_bookmarks (st st' : AppState)
    (d : String → Bool) (noteId callerId u : Nat) (role : String)
    (hok : deleteNote st d noteId callerId role = (st', .ok ())) :
    st'.bookmarks = st.bookmarks ∧
    st'.users.map (fun x => x.bookmarks) = st.users.map (fun x => x.bookmarks) ∧
    (∀ n ∈ st'.notes, n.id ≠ noteId) ∧
    (∃ note, st.notes.find? (fun n => n.id == noteId) = some note ∧
       ∀ x ∈ st'.users, x.id = note.uploadedBy → noteId ∉ x.uploadedNotes) ∧
    checkBookmark st' u noteId = checkBookmark st u noteId ∧
    (checkBookmark st u noteId = true → checkBookmark st' u noteId = true) ∧
    (∀ n ∈ getMyBookmarks st' u, n.id ≠ noteId) := by
  rcases hfind : st.notes.find? (fun n => n.id == noteId) with _ | note
  · simp only [deleteNote, hfind] at hok
    simp at hok
  · simp only [deleteNote, hfind] at hok
    by_cases hauth : note.uploadedBy ≠ callerId ∧ role ≠ "admin"
    · rw [if_pos hauth] at hok
      simp at hok
    · rw [if_neg hauth] at hok
      by_cases hd : (!d note.cloudinaryPublicId) = true
      · rw [if_pos hd] at hok
        simp at hok
      · rw [if_neg hd] at hok
        injection hok with hst _
        subst hst
        refine ⟨rfl, ?_, fun n hn => ?_, ⟨note, hfind, fun x hx hid => ?_⟩,
          rfl, fun h => h, fun n hn => ?_⟩
        · rw [List.map_map]
          apply List.map_congr_left
          intro a _
          simp only [Function.comp_apply]
          split <;> rfl
        · have := (List.mem_filter.mp hn).2
          simpa using this
        · obtain ⟨x0, hx0, rfl⟩ := List.mem_map.mp hx
          by_cases hc : (x0.id == note.uploadedBy) = true
          · simp only [hc, if_true]
            intro hmem
            have := (List.mem_filter.mp hmem).2
            simp at this
          · rw [if_neg (by simpa using hc)] at hid ⊢
            exact absurd (by simpa using hid) hc
        · simp only [getMyBookmarks, List.mem_filterMap] at hn
          obtain ⟨b, _, hfb⟩ := hn
          have hmem := List.mem_of_find?_eq_some hfb
          simp only [List.mem_filter] at hmem
          simpa using hmem.2

/-- Witness for C9: after the owner deletes the bookmarked note, the
check of user 5 still answers true and the listing hides the row. -/
theorem C9_witness :
    checkBookmark stBookmarked 5 2 = true ∧
    checkBookmark (deleteNote stBookmarked (fun _ => true) 2 1 "student").1 5 2
      = true ∧
    getMyBookmarks (deleteNote stBookmarked (fun _ => true) 2 1 "student").1 5
      = [] := by
  have h := C9_delete_note_keeps_bookmarks stBookmarked
    (deleteNote stBookmarked (fun _ => true) 2 1 "student").1 (fun _ => true)
    2 1 5 "student" rfl
  exact ⟨by decide, h.2.2.2.2.2.1 (by decide), by decide⟩

/-- C6: after a successful bookmark add, a second add fails with the
duplicate error and changes nothing; removing then succeeds, the check
answers false afterwards, and — when the mirrors were consistent with
the absent row — the add/remove round trip restores the original state
(Bookmark collection, `User.bookmarks` and `Note.bookmarkedBy`). -/
theorem C6_bookmark_round_trip (st st1 : AppState) (uid nid : Nat)
    (bm : BookmarkRec) (hadd : addBookmark st uid nid = (st1, .ok bm)) :
    addBookmark st1 uid nid = (st1, .error .duplicate) ∧
    (removeBookmark st1 uid nid).2 = .ok () ∧
    checkBookmark (removeBookmark st1 uid nid).1 uid nid = false ∧
    ((∀ u ∈ st.users, u.id = uid → nid ∉ u.bookmarks) →
     (∀ n ∈ st.notes, n.id = nid → uid ∉ n.bookmarkedBy) →
     (removeBookmark st1 uid nid).1 = st) := by
  rcases hfn : st.notes.find? (fun n => n.id == nid) with _ | note0
  · simp only [addBookmark, hfn] at hadd
    simp at hadd
  · rcases hbn : st.bookmarks.find? (isBookmarkFor uid nid) with _ | b0
    swap
    · simp only [addBookmark, hfn, hbn] at hadd
      simp at hadd
    · simp only [addBookmark, hfn, hbn] at hadd
      injection hadd with hst _
      subst hst
      have hpN : ∀ a : Note, ((pushBookmarkN uid nid a).id == nid) = (a.id == nid) := by
        intro a
        simp only [pushBookmarkN]
        cases h : a.id == nid <;> simp [h]
      have hallB : ∀ x ∈ st.bookmarks, isBookmarkFor uid nid x = false := by
        intro x hx
        have := List.find?_eq_none.mp hbn x hx
        simpa using this
      have pbm : isBookmarkFor uid nid ⟨uid, nid⟩ = true := by
        simp [isBookmarkFor]
      have e1 : (st.notes.map (pushBookmarkN uid nid)).find?
          (fun n => n.id == nid) = some (pushBookmarkN uid nid note0) := by
        rw [find?_map_pres _ _ hpN st.notes, hfn, Option.map_some']
      have e2 : (st.bookmarks ++ [⟨uid, nid⟩] : List BookmarkRec).find?
          (isBookmarkFor uid nid) = some ⟨uid, nid⟩ := by
        rw [List.find?_append, hbn]
        simp [pbm]
      have e3 : (st.bookmarks ++ [⟨uid, nid⟩] : List BookmarkRec).eraseP
          (isBookmarkFor uid nid) = st.bookmarks :=
        eraseP_append_singleton _ _ _ hallB pbm
      refine ⟨?_, ?_, ?_, ?_⟩
      · simp only [addBookmark, e1, e2]
      · simp only [removeBookmark, e2]
      · simp only [removeBookmark, e2]
        simp [checkBookmark, e3, hbn]
      · intro hU hN
        simp only [removeBookmark, e2]
        have hu : (st.users.map (pushBookmarkU uid nid)).map
            (pullBookmarkU uid nid) = st.users := by
          apply map_map_eq_self
          intro a ha
          by_cases h : (a.id == uid) = true
          · have hnin : nid ∉ a.bookmarks := hU a ha (by simpa using h)
            simp [pushBookmarkU, pullBookmarkU, h,
              filter_not_eq_of_not_mem nid a.bookmarks hnin]
          · simp [pushBookmarkU, pullBookmarkU, h]
        have hn : (st.notes.map (pushBookmarkN uid nid)).map
            (pullBookmarkN uid nid) = st.notes := by
          apply map_map_eq_self
          intro a ha
          by_cases h : (a.id == nid) = true
          · have hnin : uid ∉ a.bookmarkedBy := hN a ha (by simpa using h)
            simp [pushBookmarkN, pullBookmarkN, h,
              filter_not_eq_of_not_mem uid a.bookmarkedBy hnin]
          · simp [pushBookmarkN, pullBookmarkN, h]
        rw [hu, hn, e3]

/-- Witness for C6: the round trip of user 5 on note 2 duplicates,
checks false after removal, and restores the initial state. -/
theorem C6_witness :
    addBookmark (addBookmark stBookmarkable 5 2).1 5 2
      = ((addBookmark stBookmarkable 5 2).1, .error .duplicate) ∧
    checkBookmark (removeBookmark (addBookmark stBookmarkable 5 2).1 5 2).1 5 2
      = false ∧
    (removeBookmark (addBookmark stBookmarkable 5 2).1 5 2).1
      = stBookmarkable := by
  have h := C6_bookmark_round_trip stBookmarkable
    (addBookmark stBookmarkable 5 2).1 5 2 ⟨5, 2⟩ rfl
  exact ⟨h.1, h.2.2.1, h.2.2.2 (by decide) (by decide)⟩

end SmartNotes
